import Mathlib

/-
Verification of the `ea` repository (src/ea.py): an enhanced Flask
application wrapper with a custom Jinja template extension, webassets
integration and a livereload helper.

The Python source is shallowly embedded below.  External-library calls
(filesystem tests, `glob.glob`, `os.listdir`, `os.path.join`,
`ea_utils.abs_path`, `%`-formatting against the configuration) are
passed in as explicit function parameters; instance state
(`self.config`, the Jinja environment, the webassets environment, the
filesystem) is passed and returned explicitly.  Python strings keep
their Lean `String` type; the Python string methods used by the source
(`endswith`, `startswith`, `find('*') > -1`, `[:-5]`) are modelled over
the underlying character lists so that they compute.
-/

namespace EA

/-! ### Python string-method models -/

/-- Python `s.endswith(suffix)`. -/
def pyEndsWith (s suffix : String) : Bool := suffix.data.isSuffixOf s.data

/-- Python `s.startswith(pre)`. -/
def pyStartsWith (s pre : String) : Bool := pre.data.isPrefixOf s.data

/-- Python `s.find(c) > -1` for a one-character needle `c`. -/
def pyContainsChar (s : String) (c : Char) : Bool := s.data.contains c

/-- Python `s[:-n]` (empty when `n ≥ len(s)`). -/
def pyDropRight (s : String) (n : Nat) : String :=
  String.mk (s.data.take (s.data.length - n))

/-! ### Jinja value / expression model

The `RequiredVariablesExtension` builds Jinja AST nodes (`With`, `If`,
`And`).  We model the fragment of Jinja expressions the extension
manipulates, with Python truthiness and short-circuit `and` semantics
(Python `a and b` evaluates to `b` when `a` is truthy, else to `a`). -/

/-- Python/Jinja runtime values, as far as truthiness distinguishes them. -/
inductive JValue
  | null
  | bool (b : Bool)
  | int (n : Int)
  | str (s : String)
  deriving DecidableEq

/-- Python truthiness of a runtime value. -/
def truthy : JValue → Bool
  | .null => false
  | .bool b => b
  | .int n => n != 0
  | .str s => s != ""

/-- Jinja expression AST: literals, variable lookups, and the `And`
node that `RequiredVariablesExtension.parse` constructs. -/
inductive JExpr
  | lit (v : JValue)
  | var (name : String)
  | and (l r : JExpr)
  deriving DecidableEq

/-- Evaluation of a Jinja expression in a rendering context.
`and` short-circuits and returns one of its operands, as in Python. -/
def evalExpr (ctx : String → JValue) : JExpr → JValue
  | .lit v => v
  | .var n => ctx n
  | .and l r => if truthy (evalExpr ctx l) then evalExpr ctx r else evalExpr ctx l

/-- The Jinja AST nodes relevant to the extension: `nodes.With`
(scoped-variable block), `nodes.If` (conditional, with `body`,
`elif_` and `else_` parts), and opaque template statements. -/
inductive Node
  | withNode (targets : List String) (values : List JExpr) (body : List Node)
  | ifNode (test : JExpr) (body elifs els : List Node)
  | text (s : String)

/-- ea.py lines 284-291: build the `test` expression of the `If` node.
With one required value the value itself is the test; with more, the
values are folded into left-nested `And` nodes
(`test = And(values[0], values[1])`, then `test = And(test, values[i])`
for `i = 2 ..`).  With zero values, `values[0]` raises `IndexError`,
modelled as `Option.none`. -/
def buildTest : List JExpr → Option JExpr
  | [] => Option.none
  | [v] => some v
  | v0 :: v1 :: rest => some (rest.foldl (fun t v => JExpr.and t v) (JExpr.and v0 v1))

/-- ea.py lines 261-299, `RequiredVariablesExtension.parse`.  The
token-consuming `while` loop delegates to the host parser
(`parse_assign_target`, `parse_expression`); its result is the ordered
list of `(target, value)` assignments taken here as input, and
`parse_statements ('name:endrequired',)` yields `body`.  The method
fills a `With` node with the targets, values and body, then wraps it as
the single body element of an `If` node whose test is `buildTest` of the
values and whose `elif_`/`else_` parts are empty. -/
def RequiredVariablesExtension.parse (assignments : List (String × JExpr))
    (body : List Node) : Option Node :=
  let targets := assignments.map Prod.fst
  let values := assignments.map Prod.snd
  match buildTest values with
  | Option.none => Option.none
  | some test => some (Node.ifNode test [Node.withNode targets values body] [] [])

/-- Rendering an `If` node: render the body when the test is truthy,
otherwise the `else_` part (the extension leaves `elif_` empty). -/
def renderIf (ctx : String → JValue) : Node → List Node
  | .ifNode test body _elifs els => if truthy (evalExpr ctx test) then body else els
  | n => [n]

/-! ### File lookup: `EnhancedApp._find_file` (ea.py lines 250-254)

Filesystem existence (`os.path.exists`), path joining (`os.path.join`)
and `ea_utils.abs_path` are external effects/functions, passed in as
parameters. -/

/-- The candidate locations tried by `_find_file`, in order:
`[os.path.join(_p, filename) for _p in paths] + [filename]`. -/
def candidatePaths (join : String → String → String) (filename : String)
    (paths : List String) : List String :=
  paths.map (fun p => join p filename) ++ [filename]

/-- The `for p in ...: if os.path.exists(p): return ...` loop: first
element of the list satisfying the existence test. -/
def findFirst (fsExists : String → Bool) : List String → Option String
  | [] => Option.none
  | p :: rest => if fsExists p then some p else findFirst fsExists rest

/-- ea.py lines 250-254, `EnhancedApp._find_file`: return
`utils.abs_path(p)` for the first existing candidate `p`, else raise
`Exception('File not found:' + filename)`. -/
def EnhancedApp.find_file (fsExists : String → Bool)
    (join : String → String → String) (absPath : String → String)
    (filename : String) (paths : List String) : Except String String :=
  match findFirst fsExists (candidatePaths join filename paths) with
  | some p => Except.ok (absPath p)
  | Option.none => Except.error ("File not found:" ++ filename)

/-! ### Error handlers: `EnhancedApp.add_error_handlers` (ea.py 220-233)

A Flask view response is either a plain string with a status code, or a
`render_template(...)` result with a status code.  Each handler receives
the request path (read from the ambient `request` object in the source)
and the error object (opaque, modelled as a string). -/

/-- A response as produced by the error handlers. -/
inductive HttpResponse
  | plain (body : String) (status : Nat)
  | template (tmpl : String) (status : Nat)
  deriving DecidableEq

/-- Whether a response renders a template. -/
def rendersTemplate : HttpResponse → Bool
  | .plain _ _ => false
  | .template _ _ => true

/-- ea.py 221-223: the 410 handler. -/
def content_gone (_path _e : String) : HttpResponse :=
  HttpResponse.template "410.html" 410

/-- ea.py 225-227: the 403 handler. -/
def access_denied (_path _e : String) : HttpResponse :=
  HttpResponse.template "403.html" 403

/-- ea.py 229-233: the 404 handler: plain `'Not found', 404` when the
request path is `/favicon.ico`, else `render_template('404.html'), 404`. -/
def content_not_found (path _e : String) : HttpResponse :=
  if path == "/favicon.ico" then HttpResponse.plain "Not found" 404
  else HttpResponse.template "404.html" 404

/-- ea.py 220-233, `add_error_handlers`: the error-code → handler
registrations made on the Flask app. -/
def add_error_handlers : List (Nat × (String → String → HttpResponse)) :=
  [(410, content_gone), (403, access_denied), (404, content_not_found)]

/-! ### Configuration and the Jinja environment

`self.config` is the configuration mapping the instance methods read
(dict-style access with lowercase keys); it is passed explicitly.  A
`js_assets` input may be a single string or a list (the
`isinstance(input_files, basestring)` check). -/

/-- A `js_assets` entry's input files: a bare string or a list. -/
inductive JsInput
  | one (s : String)
  | many (l : List String)
  deriving DecidableEq

/-- The `isinstance(..., basestring)` normalisation: a bare string
becomes a one-element list. -/
def JsInput.toList : JsInput → List String
  | .one s => [s]
  | .many l => l

/-- The configuration entries read by `EnhancedApp`'s methods. -/
structure EAConfig where
  jinja_filters : List (String × String)
  jinja_functions : List (String × String)
  jinja_context : List (String × String)
  templates_folders : List String
  folder_structure : List String
  js_folders : List String
  scss_folders : List String
  scss_libs : List String
  js_assets : List (String × JsInput)
  filter_jsmin : Bool
  filter_babel : Bool
  babel_presets : String
  filter_autoprefixer : Bool
  livereload_watch_files : List String
  deriving DecidableEq

/-- The Jinja environment state touched by `EnhancedApp`.  `filters`
and `globals` are the environment's name → function dicts (values of
type `U`, the type of `ea_utils` members); `livereload_global` models
the `globals['livereload']` flag set by `run_livereload`; `loader` is
the list of `FileSystemLoader` folders in the `ChoiceLoader`. -/
structure JinjaEnv (U : Type) where
  trim_blocks : Bool
  lstrip_blocks : Bool
  extensions : List String
  filters : List (String × U)
  globals : List (String × U)
  auto_reload : Bool
  livereload_global : Bool
  loader : List String
  deriving DecidableEq

/-- The Flask application state touched by `EnhancedApp`: each
registered context processor contributes a dict of names → values. -/
structure FlaskApp (U : Type) where
  name : String
  debug : Bool
  jinja_env : JinjaEnv U
  context_processors : List (List (String × U))
  deriving DecidableEq

/-- Python dict assignment `d[k] = v` on an association list: the new
binding shadows any previous binding of `k`. -/
def dset {α : Type} (d : List (String × α)) (k : String) (v : α) :
    List (String × α) :=
  (k, v) :: d.filter (fun p => p.1 != k)

/-- ea.py 102-126, `enhance_jinja`: activate block trimming, add the
`ea.RequiredVariablesExtension`, install `getattr(utils, v)` under `k`
in `env.filters` for each `(k, v)` in `config['jinja_filters']` and in
`env.globals` for each `(k, v)` in `config['jinja_functions']`, build
the context-processor dict from `config['jinja_context']`, and replace
the template loader with a `ChoiceLoader` over
`config['templates_folders']`.  `getattr(utils, ·)` is the parameter
`utils`.  Returns the updated environment and the dict produced by the
registered context processor. -/
def EnhancedApp.enhance_jinja {U : Type} (utils : String → U)
    (config : EAConfig) (env : JinjaEnv U) : JinjaEnv U × List (String × U) :=
  let env1 := { env with
    trim_blocks := true
    lstrip_blocks := true
    extensions := env.extensions ++ ["ea.RequiredVariablesExtension"] }
  let env2 := { env1 with
    filters := config.jinja_filters.foldl
      (fun d (kv : String × String) => dset d kv.1 (utils kv.2)) env1.filters }
  let env3 := { env2 with
    globals := config.jinja_functions.foldl
      (fun d (kv : String × String) => dset d kv.1 (utils kv.2)) env2.globals }
  let ctxProc := config.jinja_context.foldl
    (fun d (kv : String × String) => dset d kv.1 (utils kv.2)) []
  let env4 := { env3 with loader := config.templates_folders }
  (env4, ctxProc)

/-! ### Webassets model -/

/-- The webassets filters constructed by `enhance_assets`
(`jsmin`, `babel(presets)`, `libsass(includes)`, `autoprefixer`). -/
inductive Filter
  | jsmin
  | babel (presets : String)
  | libsass (includes : List String)
  | autoprefixer
  deriving DecidableEq

/-- A webassets `Bundle(files, output=..., filters=..., depends=...)`. -/
structure Bundle where
  contents : List String
  output : String
  filters : List Filter
  depends : List String
  deriving DecidableEq

/-- The webassets `Environment` state set up in `__init__`. -/
structure AssetsEnv where
  url_expire : Bool
  url : String
  registry : List (String × Bundle)
  deriving DecidableEq

/-- `assets_env.register(name, bundle)`. -/
def register (env : AssetsEnv) (name : String) (b : Bundle) : AssetsEnv :=
  { env with registry := env.registry ++ [(name, b)] }

/-- ea.py 196-203, `add_css_asset`: strip the last five characters of
the filename (`filename[:-5]`) to get the bundle stem, build a bundle
from the absolute input path with output `css/<stem>.css`, and register
it as `<stem>.css`. -/
def EnhancedApp.add_css_asset (join : String → String → String)
    (absPath : String → String) (filename folder : String)
    (filters : List Filter) (depends : List String) (env : AssetsEnv) :
    AssetsEnv :=
  let name := pyDropRight filename 5
  let input_file := absPath (join folder filename)
  let output_file := "css/" ++ name ++ ".css"
  register env (name ++ ".css")
    { contents := [input_file], output := output_file,
      filters := filters, depends := depends }

/-- Python `sorted(·, reverse=True)` on strings: descending
lexicographic order. -/
def sortedDesc (l : List String) : List String :=
  List.insertionSort (fun a b => b ≤ a) l

/-- ea.py 186-191, the file-collection loop of `add_js_asset`: an entry
containing `*` is expanded (`files.extend(sorted(glob.glob(f),
reverse=True))`), any other entry is resolved with `_find_file` against
`config['js_folders']` (raising if absent). -/
def collectJsFiles (globF : String → List String) (fsExists : String → Bool)
    (join : String → String → String) (absPath : String → String)
    (js_folders : List String) : List String → Except String (List String)
  | [] => Except.ok []
  | f :: rest =>
      if pyContainsChar f '*' then
        match collectJsFiles globF fsExists join absPath js_folders rest with
        | Except.error e => Except.error e
        | Except.ok r => Except.ok (sortedDesc (globF f) ++ r)
      else
        match EnhancedApp.find_file fsExists join absPath f js_folders with
        | Except.error e => Except.error e
        | Except.ok p =>
            match collectJsFiles globF fsExists join absPath js_folders rest with
            | Except.error e => Except.error e
            | Except.ok r => Except.ok (p :: r)

/-- ea.py 182-194, `add_js_asset`: collect the input files (after the
`basestring` normalisation), bundle them with output `js/<name>.js`,
and register the bundle as `<name>.js`. -/
def EnhancedApp.add_js_asset (globF : String → List String)
    (fsExists : String → Bool) (join : String → String → String)
    (absPath : String → String) (config : EAConfig)
    (asset : String × JsInput) (filters : List Filter) (env : AssetsEnv) :
    Except String AssetsEnv :=
  match collectJsFiles globF fsExists join absPath config.js_folders
      asset.2.toList with
  | Except.error e => Except.error e
  | Except.ok files =>
      Except.ok (register env (asset.1 ++ ".js")
        { contents := files, output := "js/" ++ asset.1 ++ ".js",
          filters := filters, depends := [] })

/-- ea.py 160-161: `[self.add_js_asset(asset, js_filters) for asset in
self.config['js_assets']]`. -/
def jsAssetsLoop (globF : String → List String) (fsExists : String → Bool)
    (join : String → String → String) (absPath : String → String)
    (config : EAConfig) (filters : List Filter) :
    List (String × JsInput) → AssetsEnv → Except String AssetsEnv
  | [], env => Except.ok env
  | a :: rest, env =>
      match EnhancedApp.add_js_asset globF fsExists join absPath config a
          filters env with
      | Except.error e => Except.error e
      | Except.ok env2 =>
          jsAssetsLoop globF fsExists join absPath config filters rest env2

/-- ea.py 165-167, the inner loop of the CSS-asset registration: for
each file of a folder listing, register a CSS asset when the name ends
with `scss` and does not start with `_`. -/
def cssFilesLoop (join : String → String → String) (absPath : String → String)
    (folder : String) (filters : List Filter) (depends : List String) :
    List String → AssetsEnv → AssetsEnv
  | [], env => env
  | f :: rest, env =>
      let env2 := if pyEndsWith f "scss" && !(pyStartsWith f "_") then
          EnhancedApp.add_css_asset join absPath f folder filters depends env
        else env
      cssFilesLoop join absPath folder filters depends rest env2

/-- ea.py 164-167, the outer loop: iterate `os.listdir` over each
configured SCSS folder. -/
def cssFoldersLoop (join : String → String → String)
    (absPath : String → String) (listdir : String → List String)
    (filters : List Filter) (depends : List String) :
    List String → AssetsEnv → AssetsEnv
  | [], env => env
  | folder :: rest, env =>
      cssFoldersLoop join absPath listdir filters depends rest
        (cssFilesLoop join absPath folder filters depends (listdir folder) env)

/-- ea.py 147-149: resolve each `scss_libs` entry with `_find_file`
against the SCSS folders. -/
def collectScssIncludes (fsExists : String → Bool)
    (join : String → String → String) (absPath : String → String)
    (scss_folders : List String) : List String → Except String (List String)
  | [] => Except.ok []
  | f :: rest =>
      match EnhancedApp.find_file fsExists join absPath f scss_folders with
      | Except.error e => Except.error e
      | Except.ok p =>
          match collectScssIncludes fsExists join absPath scss_folders rest with
          | Except.error e => Except.error e
          | Except.ok r => Except.ok (p :: r)

/-- ea.py 128-167, `enhance_assets`: build the JS filter list
(`jsmin`, then `babel`), the SCSS depends globs and library includes,
the SCSS filter chain (`libsass`, then `autoprefixer`), register every
configured JS asset, then register a CSS asset for every eligible file
of every SCSS folder.  The trailing `asset_groups` normalisation
(ea.py 169-180) only massages a Jinja global and is outside every
claim; it is not embedded. -/
def EnhancedApp.enhance_assets (globF : String → List String)
    (fsExists : String → Bool) (join : String → String → String)
    (absPath : String → String) (listdir : String → List String)
    (config : EAConfig) (env : AssetsEnv) : Except String AssetsEnv :=
  let js_filters := (if config.filter_jsmin then [Filter.jsmin] else [])
      ++ (if config.filter_babel then [Filter.babel config.babel_presets] else [])
  let scss_depends := config.scss_folders.map
      (fun folder => absPath (join folder "*.scss"))
  match collectScssIncludes fsExists join absPath config.scss_folders
      config.scss_libs with
  | Except.error e => Except.error e
  | Except.ok scss_includes =>
      let sass_compiler := Filter.libsass scss_includes
      let scss_filters := [sass_compiler]
          ++ (if config.filter_autoprefixer then [Filter.autoprefixer] else [])
      match jsAssetsLoop globF fsExists join absPath config js_filters
          config.js_assets env with
      | Except.error e => Except.error e
      | Except.ok env1 =>
          Except.ok (cssFoldersLoop join absPath listdir scss_filters
            scss_depends config.scss_folders env1)

/-- The state built by `EnhancedApp.__init__`. -/
structure EnhancedAppState (U : Type) where
  app : FlaskApp U
  assets_env : AssetsEnv
  deriving DecidableEq

/-- ea.py 69-93, `EnhancedApp.__init__`: create the Flask app, create
the webassets environment with `url_expire = True` and `url =
'/static'`, run `enhance_jinja` on the app's Jinja environment
(registering its context processor on the app), then run
`enhance_assets`.  The unused `js_filters`/`css_filters`/`depends_scss`
instance attributes are not modelled. -/
def EnhancedApp.init {U : Type} (utils : String → U)
    (globF : String → List String) (fsExists : String → Bool)
    (join : String → String → String) (absPath : String → String)
    (listdir : String → List String) (config : EAConfig)
    (env0 : JinjaEnv U) (app_name : String) :
    Except String (EnhancedAppState U) :=
  let app0 : FlaskApp U :=
    { name := app_name, debug := false, jinja_env := env0,
      context_processors := [] }
  let assets0 : AssetsEnv := { url_expire := true, url := "/static", registry := [] }
  let r := EnhancedApp.enhance_jinja utils config app0.jinja_env
  let app1 : FlaskApp U :=
    { app0 with
      jinja_env := r.1
      context_processors := app0.context_processors ++ [r.2] }
  match EnhancedApp.enhance_assets globF fsExists join absPath listdir config
      assets0 with
  | Except.error e => Except.error e
  | Except.ok assets1 => Except.ok { app := app1, assets_env := assets1 }

/-! ### Folder-structure bootstrapping (ea.py 95-100, 235-245)

The filesystem is the list of existing paths.  `_create_path` creates
any missing ancestors of the path and then the path itself (as file or
directory — indistinguishable for existence); here its effect on the
existence set is taken: all missing `/`-prefixes of the path are added. -/

/-- Split a character list on a separator character. -/
def splitOnChar (c : Char) : List Char → List (List Char)
  | [] => [[]]
  | x :: xs =>
      let r := splitOnChar c xs
      if x == c then [] :: r
      else
        match r with
        | [] => [[x]]
        | h :: t => (x :: h) :: t

/-- Re-join path components with `/`. -/
def joinWithSlash : List (List Char) → List Char
  | [] => []
  | [x] => x
  | x :: y :: rest => x ++ '/' :: joinWithSlash (y :: rest)

/-- All `/`-prefixes of a path (its ancestors, ending with the path
itself). -/
def pathPrefixes (path : String) : List String :=
  let comps := splitOnChar '/' path.data
  (List.range comps.length).map
    (fun i => String.mk (joinWithSlash (comps.take (i + 1))))

/-- ea.py 235-245, `_create_path`: no-op when the path exists; else the
missing ancestors and the path itself come into existence. -/
def EnhancedApp.create_path (fs : List String) (path : String) : List String :=
  if fs.contains path then fs
  else fs ++ (pathPrefixes path).filter (fun a => !fs.contains a)

/-- ea.py 95-100, the loop of `create_folder_structure`: format each
entry against the configuration (`f % self.config`, the parameter
`fmtc`), stop (`break`) at the first entry whose path exists, create
the others in order.  Returns the created paths in creation order and
the final filesystem. -/
def createFolderLoop (fmtc : String → String) :
    List String → List String → List String × List String
  | [], fs => ([], fs)
  | e :: rest, fs =>
      let p := fmtc e
      if fs.contains p then ([], fs)
      else
        let r := createFolderLoop fmtc rest (EnhancedApp.create_path fs p)
        (p :: r.1, r.2)

/-- ea.py 95-100, `create_folder_structure`, reading
`config['folder_structure']`. -/
def EnhancedApp.create_folder_structure (fmtc : String → String)
    (config : EAConfig) (fs : List String) : List String × List String :=
  createFolderLoop fmtc config.folder_structure fs

/-- The filesystem after the loop has processed the first `j` entries. -/
def fsAfter (fmtc : String → String) (entries : List String)
    (fs : List String) (j : Nat) : List String :=
  (createFolderLoop fmtc (entries.take j) fs).2

/-! ### Livereload (ea.py 205-218) -/

/-- The livereload server configuration: watched patterns (in `watch`
call order), host and port of `serve`. -/
structure LiveServer where
  watched : List String
  host : String
  port : Nat
  deriving DecidableEq

/-- ea.py 205-218, `run_livereload`: enable Flask debug, set the
`livereload` Jinja global and template auto-reload, bootstrap the
folder structure, watch `utils.abs_path(f % self.config)` for each
configured pattern, and serve on host `0.0.0.0` at the given port
(default 8080). -/
def EnhancedApp.run_livereload {U : Type} (absPath : String → String)
    (fmtc : String → String) (config : EAConfig) (app : FlaskApp U)
    (fs : List String) (port : Nat) :
    FlaskApp U × List String × LiveServer :=
  let app1 := { app with
    debug := true
    jinja_env := { app.jinja_env with
      livereload_global := true
      auto_reload := true } }
  let fs1 := (EnhancedApp.create_folder_structure fmtc config fs).2
  let watched := config.livereload_watch_files.map (fun f => absPath (fmtc f))
  (app1, fs1, { watched := watched, host := "0.0.0.0", port := port })

/-- The default of the `port` parameter of `run_livereload`
(`def run_livereload(self, port=8080)`): calling without an explicit
port serves on 8080. -/
def EnhancedApp.run_livereload_default {U : Type} (absPath : String → String)
    (fmtc : String → String) (config : EAConfig) (app : FlaskApp U)
    (fs : List String) : FlaskApp U × List String × LiveServer :=
  EnhancedApp.run_livereload absPath fmtc config app fs 8080

/-! ### Concrete fixtures (used by witness theorems) -/

/-- A small concrete configuration for concrete runs. -/
def sampleConfig : EAConfig :=
  { jinja_filters := [("add_br", "add_br")]
    jinja_functions := []
    jinja_context := [("next_year", "next_year")]
    templates_folders := ["templates"]
    folder_structure := ["static/", "static/scss/styles.scss", "static/"]
    js_folders := ["static/js_src"]
    scss_folders := ["static/scss"]
    scss_libs := []
    js_assets := []
    filter_jsmin := false
    filter_babel := false
    babel_presets := ""
    filter_autoprefixer := false
    livereload_watch_files := ["templates/*.html"] }

/-- A fresh Jinja environment (over `U := String`, reading
`getattr(utils, v)` as the name `v` itself). -/
def sampleJinjaEnv : JinjaEnv String :=
  { trim_blocks := false
    lstrip_blocks := false
    extensions := []
    filters := []
    globals := []
    auto_reload := false
    livereload_global := false
    loader := [] }

/-- The state that `EnhancedApp.init` produces from `sampleConfig` and
`sampleJinjaEnv` with `utils := fun s => s`, `globF := fun _ => []`,
`fsExists := fun _ => false`, `join := fun a b => a ++ "/" ++ b`,
`absPath := fun s => "/app/" ++ s`,
`listdir := fun _ => ["styles.scss"]` and app name `app`. -/
def sampleInitState : EnhancedAppState String :=
  { app :=
    { name := "app"
      debug := false
      jinja_env :=
      { trim_blocks := true
        lstrip_blocks := true
        extensions := ["ea.RequiredVariablesExtension"]
        filters := [("add_br", "add_br")]
        globals := []
        auto_reload := false
        livereload_global := false
        loader := ["templates"] }
      context_processors := [[("next_year", "next_year")]] }
    assets_env :=
    { url_expire := true
      url := "/static"
      registry := [("styles.css",
        { contents := ["/app/static/scss/styles.scss"]
          output := "css/styles.css"
          filters := [Filter.libsass []]
          depends := ["/app/static/scss/*.scss"] })] } }

instance : IsTotal String (fun a b => b ≤ a) := ⟨fun a b => le_total b a⟩

instance : IsTrans String (fun a b => b ≤ a) :=
  ⟨fun _ _ _ hab hbc => le_trans hbc hab⟩

/-! ## Theorems -/

/-! ### Lemmas about the extension -/

theorem truthy_evalExpr_and (ctx : String → JValue) (l r : JExpr) :
    truthy (evalExpr ctx (JExpr.and l r))
      = (truthy (evalExpr ctx l) && truthy (evalExpr ctx r)) := by
  simp only [evalExpr]
  by_cases h : truthy (evalExpr ctx l) = true <;> simp [h]

theorem truthy_foldl_and (ctx : String → JValue) (rest : List JExpr) :
    ∀ acc : JExpr,
      truthy (evalExpr ctx (rest.foldl (fun t v => JExpr.and t v) acc))
        = (truthy (evalExpr ctx acc) && rest.all (fun v => truthy (evalExpr ctx v))) := by
  induction rest with
  | nil => intro acc; simp
  | cons v vs ih =>
      intro acc
      simp [List.foldl_cons, ih, truthy_evalExpr_and, Bool.and_assoc]

theorem buildTest_truthy (ctx : String → JValue) (values : List JExpr)
    (h : values ≠ []) :
    ∃ t, buildTest values = some t ∧
      truthy (evalExpr ctx t) = values.all (fun v => truthy (evalExpr ctx v)) := by
  match values with
  | [] => exact absurd rfl h
  | [v] => exact ⟨v, rfl, by simp⟩
  | v0 :: v1 :: rest =>
      refine ⟨_, rfl, ?_⟩
      rw [truthy_foldl_and]
      simp [truthy_evalExpr_and, Bool.and_assoc]

theorem parse_eq_of_ne_nil (assignments : List (String × JExpr)) (body : List Node)
    (h : assignments ≠ []) :
    ∃ t, buildTest (assignments.map Prod.snd) = some t ∧
      RequiredVariablesExtension.parse assignments body
        = some (Node.ifNode t
            [Node.withNode (assignments.map Prod.fst) (assignments.map Prod.snd) body]
            [] []) := by
  have h2 : assignments.map Prod.snd ≠ [] := by
    simpa using h
  obtain ⟨t, ht, _⟩ := buildTest_truthy (fun _ => JValue.null) (assignments.map Prod.snd) h2
  exact ⟨t, ht, by simp [RequiredVariablesExtension.parse, ht]⟩

/-! ### Claim theorems for the extension -/

/-- C1: for every `required` block with at least one variable
assignment, `RequiredVariablesExtension.parse` returns a conditional
(`If`) node whose test is the conjunction of all assigned value
expressions: the test is truthy exactly when every assigned value is
truthy, and the conditional renders the block's `With` body if and only
if every assigned value is truthy. -/
theorem required_block_renders_iff_all_truthy
    (assignments : List (String × JExpr)) (body : List Node)
    (ctx : String → JValue) (h : assignments ≠ []) :
    ∃ t, RequiredVariablesExtension.parse assignments body
        = some (Node.ifNode t
            [Node.withNode (assignments.map Prod.fst) (assignments.map Prod.snd) body]
            [] []) ∧
      truthy (evalExpr ctx t)
        = (assignments.map Prod.snd).all (fun v => truthy (evalExpr ctx v)) ∧
      (renderIf ctx (Node.ifNode t
            [Node.withNode (assignments.map Prod.fst) (assignments.map Prod.snd) body]
            [] [])
          = [Node.withNode (assignments.map Prod.fst) (assignments.map Prod.snd) body]
        ↔ (assignments.map Prod.snd).all (fun v => truthy (evalExpr ctx v)) = true) := by
  have h2 : assignments.map Prod.snd ≠ [] := by simpa using h
  obtain ⟨t, ht, htruthy⟩ := buildTest_truthy ctx (assignments.map Prod.snd) h2
  refine ⟨t, by simp [RequiredVariablesExtension.parse, ht], htruthy, ?_⟩
  constructor
  · intro hrender
    by_contra hall
    rw [← htruthy] at hall
    simp only [renderIf, Bool.not_eq_true] at hrender
    rw [Bool.not_eq_true] at hall
    rw [hall] at hrender
    simp at hrender
  · intro hall
    rw [← htruthy] at hall
    simp [renderIf, hall]

/-- C1 witness: a concrete two-variable `required` block. -/
theorem required_block_renders_iff_all_truthy_witness :
    ([(("x" : String), JExpr.lit (JValue.int 1)), ("y", JExpr.var "y")] ≠ []) ∧
    (∃ t, RequiredVariablesExtension.parse
          [("x", JExpr.lit (JValue.int 1)), ("y", JExpr.var "y")] [Node.text "hi"]
        = some (Node.ifNode t
            [Node.withNode
              ([(("x" : String), JExpr.lit (JValue.int 1)), ("y", JExpr.var "y")].map Prod.fst)
              ([(("x" : String), JExpr.lit (JValue.int 1)), ("y", JExpr.var "y")].map Prod.snd)
              [Node.text "hi"]]
            [] []) ∧
      truthy (evalExpr (fun _ => JValue.null) t)
        = ([(("x" : String), JExpr.lit (JValue.int 1)), ("y", JExpr.var "y")].map Prod.snd).all
            (fun v => truthy (evalExpr (fun _ => JValue.null) v)) ∧
      (renderIf (fun _ => JValue.null) (Node.ifNode t
            [Node.withNode
              ([(("x" : String), JExpr.lit (JValue.int 1)), ("y", JExpr.var "y")].map Prod.fst)
              ([(("x" : String), JExpr.lit (JValue.int 1)), ("y", JExpr.var "y")].map Prod.snd)
              [Node.text "hi"]]
            [] [])
          = [Node.withNode
              ([(("x" : String), JExpr.lit (JValue.int 1)), ("y", JExpr.var "y")].map Prod.fst)
              ([(("x" : String), JExpr.lit (JValue.int 1)), ("y", JExpr.var "y")].map Prod.snd)
              [Node.text "hi"]]
        ↔ ([(("x" : String), JExpr.lit (JValue.int 1)), ("y", JExpr.var "y")].map Prod.snd).all
            (fun v => truthy (evalExpr (fun _ => JValue.null) v)) = true)) :=
  ⟨by simp,
   required_block_renders_iff_all_truthy
     [("x", JExpr.lit (JValue.int 1)), ("y", JExpr.var "y")] [Node.text "hi"]
     (fun _ => JValue.null) (by simp)⟩

/-- C2 counterexample: with zero variable assignments (a bare
`{% required %}` block, which the host sub-parsers accept: the
assignment loop just never runs), `parse` itself fails — the
`else` branch evaluates `values[0]` on an empty list, an `IndexError`
the host parser would never raise. -/
theorem parse_fails_on_zero_assignments :
    RequiredVariablesExtension.parse [] [] = Option.none := rfl

/-- C2 (amended): `RequiredVariablesExtension.parse` introduces no
failure of its own for any block with at least one variable assignment;
the zero-assignment case, however, fails with an index error. -/
theorem parse_total_of_assignments (assignments : List (String × JExpr))
    (body : List Node) (h : assignments ≠ []) :
    (RequiredVariablesExtension.parse assignments body).isSome = true := by
  obtain ⟨t, _, hp⟩ := parse_eq_of_ne_nil assignments body h
  rw [hp]
  rfl

/-- C2 (amended) witness: a one-assignment block parses successfully. -/
theorem parse_total_of_assignments_witness :
    ([(("x" : String), JExpr.var "x")] ≠ []) ∧
    (RequiredVariablesExtension.parse [("x", JExpr.var "x")] []).isSome = true :=
  ⟨by simp, parse_total_of_assignments [("x", JExpr.var "x")] [] (by simp)⟩

/-- C3: every successfully parsed `required` block produces exactly an
`If` node whose body is the single `With` node carrying the declared
target names, the assigned value expressions, and the statements parsed
up to `endrequired`; the `elif_` and `else_` parts are empty. -/
theorem required_block_node_structure
    (assignments : List (String × JExpr)) (body : List Node) (node : Node)
    (h : RequiredVariablesExtension.parse assignments body = some node) :
    ∃ t, buildTest (assignments.map Prod.snd) = some t ∧
      node = Node.ifNode t
        [Node.withNode (assignments.map Prod.fst) (assignments.map Prod.snd) body]
        [] [] := by
  cases hb : buildTest (assignments.map Prod.snd) with
  | none => simp [RequiredVariablesExtension.parse, hb] at h
  | some t =>
      simp [RequiredVariablesExtension.parse, hb] at h
      exact ⟨t, rfl, h.symm⟩

/-- C3 witness: the structure at a concrete successfully parsed block. -/
theorem required_block_node_structure_witness :
    (RequiredVariablesExtension.parse [(("a" : String), JExpr.var "a")] [Node.text "t"]
        = some (Node.ifNode (JExpr.var "a")
            [Node.withNode ["a"] [JExpr.var "a"] [Node.text "t"]] [] [])) ∧
    (∃ t, buildTest ([(("a" : String), JExpr.var "a")].map Prod.snd) = some t ∧
      Node.ifNode (JExpr.var "a")
          [Node.withNode ["a"] [JExpr.var "a"] [Node.text "t"]] [] []
        = Node.ifNode t
            [Node.withNode ([(("a" : String), JExpr.var "a")].map Prod.fst)
              ([(("a" : String), JExpr.var "a")].map Prod.snd) [Node.text "t"]]
            [] []) :=
  ⟨rfl, required_block_node_structure [("a", JExpr.var "a")] [Node.text "t"] _ rfl⟩

/-! ### Claim theorem for `_find_file` -/

theorem findFirst_eq_find? (fsExists : String → Bool) (l : List String) :
    findFirst fsExists l = l.find? fsExists := by
  induction l with
  | nil => rfl
  | cons p rest ih =>
      by_cases h : fsExists p = true
      · simp [findFirst, List.find?_cons, h]
      · rw [Bool.not_eq_true] at h
        simp [findFirst, List.find?_cons, h, ih]

/-- C4: `_find_file` raises exactly when the filename exists at none of
the candidate locations (each search path joined with the filename,
then the bare filename); otherwise it returns the absolute path of the
first candidate, in that order, that exists. -/
theorem find_file_spec (fsExists : String → Bool)
    (join : String → String → String) (absPath : String → String)
    (filename : String) (paths : List String) :
    ((∃ e, EnhancedApp.find_file fsExists join absPath filename paths = Except.error e)
      ↔ ∀ c ∈ candidatePaths join filename paths, fsExists c = false) ∧
    (∀ p, (candidatePaths join filename paths).find? fsExists = some p →
      EnhancedApp.find_file fsExists join absPath filename paths
        = Except.ok (absPath p)) := by
  constructor
  · rw [EnhancedApp.find_file, findFirst_eq_find?]
    cases h : (candidatePaths join filename paths).find? fsExists with
    | none =>
        rw [List.find?_eq_none] at h
        simp only []
        constructor
        · intro _ c hc
          exact Bool.not_eq_true (fsExists c) |>.mp (h c hc)
        · intro _
          exact ⟨"File not found:" ++ filename, rfl⟩
    | some p =>
        simp only []
        constructor
        · rintro ⟨e, he⟩
          exact absurd he (by simp)
        · intro hall
          have := List.find?_some h
          rw [hall p (List.mem_of_find?_eq_some h)] at this
          exact absurd this (by simp)
  · intro p hp
    rw [EnhancedApp.find_file, findFirst_eq_find?, hp]

/-- C4 witness: a concrete filesystem with the file present in the
first search folder. -/
theorem find_file_spec_witness :
    ((∃ e, EnhancedApp.find_file (fun s => s == "d/f")
          (fun a b => a ++ "/" ++ b) (fun s => "/root/" ++ s) "f" ["d"]
        = Except.error e)
      ↔ ∀ c ∈ candidatePaths (fun a b => a ++ "/" ++ b) "f" ["d"],
          (fun s => s == "d/f") c = false) ∧
    (∀ p, (candidatePaths (fun a b => a ++ "/" ++ b) "f" ["d"]).find?
          (fun s => s == "d/f") = some p →
      EnhancedApp.find_file (fun s => s == "d/f")
          (fun a b => a ++ "/" ++ b) (fun s => "/root/" ++ s) "f" ["d"]
        = Except.ok ((fun s => "/root/" ++ s) p)) :=
  find_file_spec (fun s => s == "d/f") (fun a b => a ++ "/" ++ b)
    (fun s => "/root/" ++ s) "f" ["d"]

/-! ### Claim theorem for the error handlers -/

/-- C8: the registered 404 handler returns the plain-text body
`Not found` with status 404 (rendering no template) when the request
path is exactly `/favicon.ico`, and renders the `404.html` template
with status 404 for every other request path. -/
theorem error_handler_404_spec :
    ((404, content_not_found) ∈ add_error_handlers) ∧
    (∀ path e,
      (path = "/favicon.ico" →
        content_not_found path e = HttpResponse.plain "Not found" 404 ∧
        rendersTemplate (content_not_found path e) = false) ∧
      (path ≠ "/favicon.ico" →
        content_not_found path e = HttpResponse.template "404.html" 404)) := by
  refine ⟨by simp [add_error_handlers], fun path e => ⟨?_, ?_⟩⟩
  · intro h
    subst h
    exact ⟨rfl, rfl⟩
  · intro h
    simp [content_not_found, h]

/-- C8 witness: the favicon path gets the plain response, another path
gets the template response. -/
theorem error_handler_404_spec_witness :
    content_not_found "/favicon.ico" "err" = HttpResponse.plain "Not found" 404 ∧
    content_not_found "/other" "err" = HttpResponse.template "404.html" 404 :=
  ⟨((error_handler_404_spec.2 "/favicon.ico" "err").1 rfl).1,
   (error_handler_404_spec.2 "/other" "err").2 (by simp)⟩

/-! ### Dict-update lemmas and the `__init__` wiring claim -/

theorem lookup_dset_self {α : Type} (d : List (String × α)) (k : String) (v : α) :
    (dset d k v).lookup k = some v := by
  simp [dset, List.lookup]

theorem lookup_filter_ne {α : Type} (d : List (String × α)) (k k2 : String)
    (h : k ≠ k2) :
    (d.filter (fun p => p.1 != k2)).lookup k = d.lookup k := by
  induction d with
  | nil => rfl
  | cons p t ih =>
      obtain ⟨a, b⟩ := p
      by_cases ha : a = k2
      · subst ha
        simp [List.filter_cons, List.lookup, beq_eq_false_iff_ne.mpr h, ih]
      · simp [List.filter_cons, List.lookup, ha, ih]

theorem lookup_dset_ne {α : Type} (d : List (String × α)) (k k2 : String)
    (v : α) (h : k ≠ k2) : (dset d k2 v).lookup k = d.lookup k := by
  simp [dset, List.lookup, beq_eq_false_iff_ne.mpr h, lookup_filter_ne d k k2 h]

theorem lookup_foldl_dset_not_mem {α : Type} (f : String → α)
    (l : List (String × String)) (k : String) (h : k ∉ l.map Prod.fst) :
    ∀ d : List (String × α),
      (l.foldl (fun d (kv : String × String) => dset d kv.1 (f kv.2)) d).lookup k
        = d.lookup k := by
  induction l with
  | nil => intro d; rfl
  | cons kv t ih =>
      intro d
      simp only [List.map_cons, List.mem_cons] at h
      push_neg at h
      rw [List.foldl_cons, ih h.2, lookup_dset_ne _ _ _ _ h.1]

theorem lookup_foldl_dset {α : Type} (f : String → α)
    (l : List (String × String)) (k v : String)
    (hnd : (l.map Prod.fst).Nodup) (hm : (k, v) ∈ l) :
    ∀ d : List (String × α),
      (l.foldl (fun d (kv : String × String) => dset d kv.1 (f kv.2)) d).lookup k
        = some (f v) := by
  induction l with
  | nil => cases hm
  | cons kv t ih =>
      intro d
      rw [List.foldl_cons]
      rcases List.mem_cons.mp hm with heq | hmem
      · subst heq
        have hk : k ∉ t.map Prod.fst := by
          rw [List.map_cons, List.nodup_cons] at hnd
          exact hnd.1
        rw [lookup_foldl_dset_not_mem f t k hk, lookup_dset_self]
      · have hnd2 : (t.map Prod.fst).Nodup := by
          rw [List.map_cons, List.nodup_cons] at hnd
          exact hnd.2
        exact ih hnd2 hmem _

/-- C5: constructing an `EnhancedApp` wires the extra templating
filters and context functions.  For every `(k, v)` of the
configuration's `jinja_filters` dict (a Python dict, so its keys are
distinct — the `Nodup` hypotheses), the utility function
`getattr(utils, v)` is installed under `k` in the Jinja environment's
filters, and a context processor is registered that supplies
`getattr(utils, v)` under `k` for every `(k, v)` of `jinja_context`. -/
theorem init_wires_filters_and_context {U : Type} (utils : String → U)
    (globF : String → List String) (fsExists : String → Bool)
    (join : String → String → String) (absPath : String → String)
    (listdir : String → List String) (config : EAConfig)
    (env0 : JinjaEnv U) (app_name : String) (st : EnhancedAppState U)
    (hok : EnhancedApp.init utils globF fsExists join absPath listdir config
      env0 app_name = Except.ok st)
    (hnd : (config.jinja_filters.map Prod.fst).Nodup)
    (hndc : (config.jinja_context.map Prod.fst).Nodup) :
    (∀ k v, (k, v) ∈ config.jinja_filters →
      st.app.jinja_env.filters.lookup k = some (utils v)) ∧
    (∃ proc ∈ st.app.context_processors,
      ∀ k v, (k, v) ∈ config.jinja_context →
        proc.lookup k = some (utils v)) := by
  cases ha : EnhancedApp.enhance_assets globF fsExists join absPath listdir
      config { url_expire := true, url := "/static", registry := [] } with
  | error e => simp [EnhancedApp.init, ha] at hok
  | ok assets1 =>
      simp only [EnhancedApp.init, ha, Except.ok.injEq] at hok
      subst hok
      constructor
      · intro k v hm
        simp only [EnhancedApp.enhance_jinja]
        exact lookup_foldl_dset utils config.jinja_filters k v hnd hm _
      · refine ⟨(EnhancedApp.enhance_jinja utils config env0).2, by simp, ?_⟩
        intro k v hm
        simp only [EnhancedApp.enhance_jinja]
        exact lookup_foldl_dset utils config.jinja_context k v hndc hm _

/-! ### Webassets lemmas and the SCSS-registration claim -/

theorem register_url_expire (env : AssetsEnv) (name : String) (b : Bundle) :
    (register env name b).url_expire = env.url_expire := rfl

theorem add_css_asset_url_expire (join : String → String → String)
    (absPath : String → String) (filename folder : String)
    (filters : List Filter) (depends : List String) (env : AssetsEnv) :
    (EnhancedApp.add_css_asset join absPath filename folder filters depends
      env).url_expire = env.url_expire := rfl

theorem cssFilesLoop_url_expire (join : String → String → String)
    (absPath : String → String) (folder : String) (filters : List Filter)
    (depends : List String) :
    ∀ (l : List String) (env : AssetsEnv),
      (cssFilesLoop join absPath folder filters depends l env).url_expire
        = env.url_expire := by
  intro l
  induction l with
  | nil => intro env; rfl
  | cons f rest ih =>
      intro env
      simp only [cssFilesLoop]
      rw [ih]
      split <;> rfl

theorem cssFoldersLoop_url_expire (join : String → String → String)
    (absPath : String → String) (listdir : String → List String)
    (filters : List Filter) (depends : List String) :
    ∀ (folders : List String) (env : AssetsEnv),
      (cssFoldersLoop join absPath listdir filters depends folders
        env).url_expire = env.url_expire := by
  intro folders
  induction folders with
  | nil => intro env; rfl
  | cons g rest ih =>
      intro env
      simp only [cssFoldersLoop]
      rw [ih, cssFilesLoop_url_expire]

theorem add_js_asset_url_expire (globF : String → List String)
    (fsExists : String → Bool) (join : String → String → String)
    (absPath : String → String) (config : EAConfig) (asset : String × JsInput)
    (filters : List Filter) (env env2 : AssetsEnv)
    (h : EnhancedApp.add_js_asset globF fsExists join absPath config asset
      filters env = Except.ok env2) :
    env2.url_expire = env.url_expire := by
  cases hc : collectJsFiles globF fsExists join absPath config.js_folders
      asset.2.toList with
  | error e => simp [EnhancedApp.add_js_asset, hc] at h
  | ok files =>
      simp only [EnhancedApp.add_js_asset, hc, Except.ok.injEq] at h
      rw [← h]
      rfl

theorem jsAssetsLoop_url_expire (globF : String → List String)
    (fsExists : String → Bool) (join : String → String → String)
    (absPath : String → String) (config : EAConfig) (filters : List Filter) :
    ∀ (l : List (String × JsInput)) (env env2 : AssetsEnv),
      jsAssetsLoop globF fsExists join absPath config filters l env
        = Except.ok env2 → env2.url_expire = env.url_expire := by
  intro l
  induction l with
  | nil =>
      intro env env2 h
      simp only [jsAssetsLoop, Except.ok.injEq] at h
      rw [← h]
  | cons a rest ih =>
      intro env env2 h
      simp only [jsAssetsLoop] at h
      cases hc : EnhancedApp.add_js_asset globF fsExists join absPath config a
          filters env with
      | error e => rw [hc] at h; cases h
      | ok envm =>
          rw [hc] at h
          rw [ih envm env2 h,
            add_js_asset_url_expire globF fsExists join absPath config a
              filters env envm hc]

theorem add_css_asset_mono (join : String → String → String)
    (absPath : String → String) (filename folder : String)
    (filters : List Filter) (depends : List String) (env : AssetsEnv)
    (x : String × Bundle) (h : x ∈ env.registry) :
    x ∈ (EnhancedApp.add_css_asset join absPath filename folder filters
      depends env).registry := by
  simp only [EnhancedApp.add_css_asset, register, List.mem_append]
  exact Or.inl h

theorem add_css_asset_mem (join : String → String → String)
    (absPath : String → String) (filename folder : String)
    (filters : List Filter) (depends : List String) (env : AssetsEnv) :
    (pyDropRight filename 5 ++ ".css",
      { contents := [absPath (join folder filename)]
        output := "css/" ++ pyDropRight filename 5 ++ ".css"
        filters := filters
        depends := depends : Bundle }) ∈
      (EnhancedApp.add_css_asset join absPath filename folder filters depends
        env).registry := by
  simp [EnhancedApp.add_css_asset, register]

theorem cssFilesLoop_mono (join : String → String → String)
    (absPath : String → String) (folder : String) (filters : List Filter)
    (depends : List String) :
    ∀ (l : List String) (env : AssetsEnv) (x : String × Bundle),
      x ∈ env.registry →
      x ∈ (cssFilesLoop join absPath folder filters depends l env).registry := by
  intro l
  induction l with
  | nil => intro env x h; exact h
  | cons f rest ih =>
      intro env x h
      simp only [cssFilesLoop]
      apply ih
      split
      · exact add_css_asset_mono join absPath f folder filters depends env x h
      · exact h

theorem cssFilesLoop_mem (join : String → String → String)
    (absPath : String → String) (folder : String) (filters : List Filter)
    (depends : List String) :
    ∀ (l : List String) (env : AssetsEnv) (f : String), f ∈ l →
      pyEndsWith f "scss" = true → pyStartsWith f "_" = false →
      (pyDropRight f 5 ++ ".css",
        { contents := [absPath (join folder f)]
          output := "css/" ++ pyDropRight f 5 ++ ".css"
          filters := filters
          depends := depends : Bundle }) ∈
        (cssFilesLoop join absPath folder filters depends l env).registry := by
  intro l
  induction l with
  | nil => intro env f hf; cases hf
  | cons g rest ih =>
      intro env f hf hend hsw
      rcases List.mem_cons.mp hf with heq | hmem
      · subst heq
        have hcond : (pyEndsWith f "scss" && !(pyStartsWith f "_")) = true := by
          simp [hend, hsw]
        simp only [cssFilesLoop]
        apply cssFilesLoop_mono
        rw [if_pos hcond]
        exact add_css_asset_mem join absPath f folder filters depends env
      · simp only [cssFilesLoop]
        exact ih _ f hmem hend hsw

theorem cssFoldersLoop_mono (join : String → String → String)
    (absPath : String → String) (listdir : String → List String)
    (filters : List Filter) (depends : List String) :
    ∀ (folders : List String) (env : AssetsEnv) (x : String × Bundle),
      x ∈ env.registry →
      x ∈ (cssFoldersLoop join absPath listdir filters depends folders
        env).registry := by
  intro folders
  induction folders with
  | nil => intro env x h; exact h
  | cons g rest ih =>
      intro env x h
      simp only [cssFoldersLoop]
      exact ih _ x (cssFilesLoop_mono join absPath g filters depends _ env x h)

theorem cssFoldersLoop_mem (join : String → String → String)
    (absPath : String → String) (listdir : String → List String)
    (filters : List Filter) (depends : List String) :
    ∀ (folders : List String) (env : AssetsEnv) (folder : String),
      folder ∈ folders → ∀ f ∈ listdir folder,
      pyEndsWith f "scss" = true → pyStartsWith f "_" = false →
      (pyDropRight f 5 ++ ".css",
        { contents := [absPath (join folder f)]
          output := "css/" ++ pyDropRight f 5 ++ ".css"
          filters := filters
          depends := depends : Bundle }) ∈
        (cssFoldersLoop join absPath listdir filters depends folders
          env).registry := by
  intro folders
  induction folders with
  | nil => intro env folder hfold; cases hfold
  | cons g rest ih =>
      intro env folder hfold f hf hend hsw
      rcases List.mem_cons.mp hfold with heq | hmem
      · subst heq
        simp only [cssFoldersLoop]
        exact cssFoldersLoop_mono join absPath listdir filters depends rest _ _
          (cssFilesLoop_mem join absPath folder filters depends
            (listdir folder) env f hf hend hsw)
      · simp only [cssFoldersLoop]
        exact ih _ folder hmem f hf hend hsw

/-- C6: constructing an `EnhancedApp` registers the SCSS compilation
pipeline: for every file of every configured SCSS folder whose name
ends with `scss` and does not start with `_`, a bundle named
`<stem>.css` (the stem being the filename with its last five characters
removed) with output path `css/<stem>.css` is registered in the asset
environment, whose versioned-output flag `url_expire` is enabled. -/
theorem init_registers_scss_bundles {U : Type} (utils : String → U)
    (globF : String → List String) (fsExists : String → Bool)
    (join : String → String → String) (absPath : String → String)
    (listdir : String → List String) (config : EAConfig)
    (env0 : JinjaEnv U) (app_name : String) (st : EnhancedAppState U)
    (hok : EnhancedApp.init utils globF fsExists join absPath listdir config
      env0 app_name = Except.ok st)
    (folder f : String) (hfold : folder ∈ config.scss_folders)
    (hf : f ∈ listdir folder) (hend : pyEndsWith f "scss" = true)
    (hsw : pyStartsWith f "_" = false) :
    st.assets_env.url_expire = true ∧
    ∃ fl dep, (pyDropRight f 5 ++ ".css",
      { contents := [absPath (join folder f)]
        output := "css/" ++ pyDropRight f 5 ++ ".css"
        filters := fl
        depends := dep : Bundle }) ∈ st.assets_env.registry := by
  cases ha : EnhancedApp.enhance_assets globF fsExists join absPath listdir
      config { url_expire := true, url := "/static", registry := [] } with
  | error e => simp [EnhancedApp.init, ha] at hok
  | ok assets1 =>
      simp only [EnhancedApp.init, ha, Except.ok.injEq] at hok
      subst hok
      simp only [EnhancedApp.enhance_assets] at ha
      cases hsc : collectScssIncludes fsExists join absPath config.scss_folders
          config.scss_libs with
      | error e => rw [hsc] at ha; cases ha
      | ok includes =>
          rw [hsc] at ha
          cases hjs : jsAssetsLoop globF fsExists join absPath config
              ((if config.filter_jsmin then [Filter.jsmin] else []) ++
                (if config.filter_babel then [Filter.babel config.babel_presets]
                  else []))
              config.js_assets
              { url_expire := true, url := "/static", registry := [] } with
          | error e => rw [hjs] at ha; cases ha
          | ok env1 =>
              rw [hjs] at ha
              simp only [Except.ok.injEq] at ha
              rw [← ha]
              constructor
              · rw [cssFoldersLoop_url_expire,
                  jsAssetsLoop_url_expire globF fsExists join absPath config _
                    config.js_assets _ env1 hjs]
              · exact ⟨_, _, cssFoldersLoop_mem join absPath listdir _ _
                  config.scss_folders env1 folder hfold f hf hend hsw⟩

/-! ### Livereload claim -/

/-- C7: `run_livereload` watches exactly the configured watch-file
patterns (each formatted against the configuration and made absolute,
in order), enables Flask debug and Jinja template auto-reload, and
serves on host `0.0.0.0` at the given port; called without a port it
serves on 8080. -/
theorem run_livereload_spec {U : Type} (absPath fmtc : String → String)
    (config : EAConfig) (app : FlaskApp U) (fs : List String) (port : Nat) :
    ((EnhancedApp.run_livereload absPath fmtc config app fs port).2.2.watched
        = config.livereload_watch_files.map (fun f => absPath (fmtc f))) ∧
    ((EnhancedApp.run_livereload absPath fmtc config app fs port).1.debug
        = true) ∧
    ((EnhancedApp.run_livereload absPath fmtc config app fs
        port).1.jinja_env.auto_reload = true) ∧
    ((EnhancedApp.run_livereload absPath fmtc config app fs port).2.2.host
        = "0.0.0.0") ∧
    ((EnhancedApp.run_livereload absPath fmtc config app fs port).2.2.port
        = port) ∧
    ((EnhancedApp.run_livereload_default absPath fmtc config app fs).2.2.port
        = 8080) :=
  ⟨rfl, rfl, rfl, rfl, rfl, rfl⟩

/-! ### Folder-structure claim -/

theorem fsAfter_cons (fmtc : String → String) (a : String)
    (rest fs : List String) (j : Nat) (h : fs.contains (fmtc a) = false) :
    fsAfter fmtc (a :: rest) fs (j + 1)
      = fsAfter fmtc rest (EnhancedApp.create_path fs (fmtc a)) j := by
  have hm : ¬ fmtc a ∈ fs := by simpa using h
  simp [fsAfter, List.take_succ_cons, createFolderLoop, hm]

theorem createFolderLoop_spec (fmtc : String → String) :
    ∀ (entries : List String) (fs : List String),
      ∃ k, k ≤ entries.length ∧
        (createFolderLoop fmtc entries fs).1 = (entries.take k).map fmtc ∧
        (∀ j, j < k → ∀ e, entries[j]? = some e →
          (fsAfter fmtc entries fs j).contains (fmtc e) = false) ∧
        (∀ e, entries[k]? = some e →
          (fsAfter fmtc entries fs k).contains (fmtc e) = true) := by
  intro entries
  induction entries with
  | nil =>
      intro fs
      refine ⟨0, Nat.le_refl 0, rfl, ?_, ?_⟩
      · intro j hj
        exact absurd hj (Nat.not_lt_zero j)
      · intro e he
        simp at he
  | cons a rest ih =>
      intro fs
      cases h : fs.contains (fmtc a) with
      | true =>
          have hm : fmtc a ∈ fs := by simpa using h
          refine ⟨0, Nat.zero_le _, ?_, ?_, ?_⟩
          · simp [createFolderLoop, hm]
          · intro j hj
            exact absurd hj (Nat.not_lt_zero j)
          · intro e he
            simp only [List.getElem?_cons_zero, Option.some.injEq] at he
            subst he
            exact h
      | false =>
          have hm : ¬ fmtc a ∈ fs := by simpa using h
          obtain ⟨k, hk, hcr, hbef, hat⟩ := ih (EnhancedApp.create_path fs (fmtc a))
          refine ⟨k + 1, Nat.succ_le_succ hk, ?_, ?_, ?_⟩
          · simp [createFolderLoop, hm, List.take_succ_cons, hcr]
          · intro j hj e he
            cases j with
            | zero =>
                simp only [List.getElem?_cons_zero, Option.some.injEq] at he
                subst he
                exact h
            | succ j2 =>
                rw [fsAfter_cons fmtc a rest fs j2 h]
                exact hbef j2 (Nat.lt_of_succ_lt_succ hj) e (by simpa using he)
          · intro e he
            rw [fsAfter_cons fmtc a rest fs k h]
            exact hat e (by simpa using he)

/-- C9: `create_folder_structure` processes the configured
folder-structure entries strictly in list order and stops (`break`) at
the first entry whose formatted path already exists at its turn: the
created paths are exactly the formatted entries strictly before that
one (so no entry after the first existing one is ever created), each of
which did not exist when its turn came, while the stopping entry's path
did exist when its turn came. -/
theorem create_folder_structure_stops_at_first_existing
    (fmtc : String → String) (config : EAConfig) (fs : List String) :
    ∃ k, k ≤ config.folder_structure.length ∧
      (EnhancedApp.create_folder_structure fmtc config fs).1
        = (config.folder_structure.take k).map fmtc ∧
      (∀ j, j < k → ∀ e, config.folder_structure[j]? = some e →
        (fsAfter fmtc config.folder_structure fs j).contains (fmtc e) = false) ∧
      (∀ e, config.folder_structure[k]? = some e →
        (fsAfter fmtc config.folder_structure fs k).contains (fmtc e) = true) :=
  createFolderLoop_spec fmtc config.folder_structure fs

/-! ### JS-asset claim -/

theorem collectJsFiles_ok_of (globF : String → List String)
    (fsExists : String → Bool) (join : String → String → String)
    (absPath : String → String) (js_folders : List String) :
    ∀ l : List String,
      (∀ f ∈ l, pyContainsChar f '*' = false →
        ∃ p, EnhancedApp.find_file fsExists join absPath f js_folders
          = Except.ok p) →
      collectJsFiles globF fsExists join absPath js_folders l
        = Except.ok (l.flatMap (fun f =>
            if pyContainsChar f '*' then sortedDesc (globF f)
            else (EnhancedApp.find_file fsExists join absPath f
              js_folders).toOption.toList)) := by
  intro l
  induction l with
  | nil => intro _; rfl
  | cons f rest ih =>
      intro h
      have hrest := ih (fun f2 hf2 => h f2 (List.mem_cons_of_mem f hf2))
      cases hg : pyContainsChar f '*' with
      | true => simp [collectJsFiles, hg, hrest]
      | false =>
          obtain ⟨p, hp⟩ := h f (List.mem_cons_self f rest) hg
          simp [collectJsFiles, hg, hp, hrest, Except.toOption]

theorem collectJsFiles_ok_imp (globF : String → List String)
    (fsExists : String → Bool) (join : String → String → String)
    (absPath : String → String) (js_folders : List String) :
    ∀ (l : List String) (r : List String),
      collectJsFiles globF fsExists join absPath js_folders l = Except.ok r →
      (∀ f ∈ l, pyContainsChar f '*' = false →
        ∃ p, EnhancedApp.find_file fsExists join absPath f js_folders
          = Except.ok p) ∧
      r = l.flatMap (fun f =>
        if pyContainsChar f '*' then sortedDesc (globF f)
        else (EnhancedApp.find_file fsExists join absPath f
          js_folders).toOption.toList) := by
  intro l
  induction l with
  | nil =>
      intro r h
      simp only [collectJsFiles, Except.ok.injEq] at h
      exact ⟨fun f hf => absurd hf (List.not_mem_nil f), by simp [← h]⟩
  | cons f rest ih =>
      intro r h
      cases hg : pyContainsChar f '*' with
      | true =>
          simp only [collectJsFiles, hg, if_true] at h
          cases hrest : collectJsFiles globF fsExists join absPath js_folders
              rest with
          | error e => rw [hrest] at h; cases h
          | ok r2 =>
              rw [hrest] at h
              simp only [Except.ok.injEq] at h
              obtain ⟨hall, heq⟩ := ih r2 hrest
              constructor
              · intro f2 hf2 hng
                rcases List.mem_cons.mp hf2 with heq2 | hmem
                · rw [heq2] at hng
                  rw [hng] at hg
                  cases hg
                · exact hall f2 hmem hng
              · rw [← h, heq]
                simp [List.flatMap_cons, hg]
      | false =>
          simp only [collectJsFiles, hg, Bool.false_eq_true, if_false] at h
          cases hff : EnhancedApp.find_file fsExists join absPath f js_folders with
          | error e => rw [hff] at h; cases h
          | ok p =>
              rw [hff] at h
              cases hrest : collectJsFiles globF fsExists join absPath js_folders
                  rest with
              | error e => rw [hrest] at h; cases h
              | ok r2 =>
                  rw [hrest] at h
                  simp only [Except.ok.injEq] at h
                  obtain ⟨hall, heq⟩ := ih r2 hrest
                  constructor
                  · intro f2 hf2 hng
                    rcases List.mem_cons.mp hf2 with heq2 | hmem
                    · exact ⟨p, heq2 ▸ hff⟩
                    · exact hall f2 hmem hng
                  · rw [← h, heq]
                    simp [List.flatMap_cons, hg, hff, Except.toOption]

/-- C10: in `add_js_asset`, every input entry containing `*` expands to
its glob matches in descending (reverse-sorted) order, every other
entry resolves through the JS-folder search (`_find_file`), failing
exactly when some such entry is found nowhere; on success the bundle is
registered under `<name>.js` with output `js/<name>.js` and the
collected files in input order. -/
theorem add_js_asset_spec (globF : String → List String)
    (fsExists : String → Bool) (join : String → String → String)
    (absPath : String → String) (config : EAConfig) (name : String)
    (inputs : List String) (filters : List Filter) (env : AssetsEnv) :
    ((∃ env2, EnhancedApp.add_js_asset globF fsExists join absPath config
        (name, JsInput.many inputs) filters env = Except.ok env2)
      ↔ ∀ f ∈ inputs, pyContainsChar f '*' = false →
          ∃ p, EnhancedApp.find_file fsExists join absPath f config.js_folders
            = Except.ok p) ∧
    (∀ env2, EnhancedApp.add_js_asset globF fsExists join absPath config
        (name, JsInput.many inputs) filters env = Except.ok env2 →
      env2.registry = env.registry ++ [(name ++ ".js",
        { contents := inputs.flatMap (fun f =>
            if pyContainsChar f '*' then sortedDesc (globF f)
            else (EnhancedApp.find_file fsExists join absPath f
              config.js_folders).toOption.toList)
          output := "js/" ++ name ++ ".js"
          filters := filters
          depends := [] : Bundle })]) ∧
    (∀ l : List String,
      List.Sorted (fun a b : String => b ≤ a) (sortedDesc l) ∧
      (sortedDesc l).Perm l) := by
  refine ⟨⟨?_, ?_⟩, ?_, ?_⟩
  · rintro ⟨env2, h⟩
    cases hc : collectJsFiles globF fsExists join absPath config.js_folders
        inputs with
    | error e => simp [EnhancedApp.add_js_asset, JsInput.toList, hc] at h
    | ok files =>
        exact (collectJsFiles_ok_imp globF fsExists join absPath
          config.js_folders inputs files hc).1
  · intro hall
    refine ⟨register env (name ++ ".js")
      { contents := inputs.flatMap (fun f =>
          if pyContainsChar f '*' then sortedDesc (globF f)
          else (EnhancedApp.find_file fsExists join absPath f
            config.js_folders).toOption.toList)
        output := "js/" ++ name ++ ".js"
        filters := filters
        depends := [] }, ?_⟩
    simp only [EnhancedApp.add_js_asset, JsInput.toList]
    rw [collectJsFiles_ok_of globF fsExists join absPath config.js_folders
      inputs hall]
  · intro env2 h
    cases hc : collectJsFiles globF fsExists join absPath config.js_folders
        inputs with
    | error e => simp [EnhancedApp.add_js_asset, JsInput.toList, hc] at h
    | ok files =>
        simp only [EnhancedApp.add_js_asset, JsInput.toList, hc,
          Except.ok.injEq] at h
        rw [← h]
        simp only [register]
        rw [(collectJsFiles_ok_imp globF fsExists join absPath
          config.js_folders inputs files hc).2]
  · intro l
    exact ⟨List.sorted_insertionSort _ l, List.perm_insertionSort _ l⟩

/-! ### Witnesses for the `EnhancedApp` claims -/

/-- C5 witness: a concrete construction installing one filter and one
context function. -/
theorem init_wires_filters_and_context_witness :
    (EnhancedApp.init (fun s => s) (fun _ : String => ([] : List String))
        (fun _ => false) (fun a b => a ++ "/" ++ b) (fun s => "/app/" ++ s)
        (fun _ => ["styles.scss"]) sampleConfig sampleJinjaEnv "app"
      = Except.ok sampleInitState) ∧
    (sampleConfig.jinja_filters.map Prod.fst).Nodup ∧
    (sampleConfig.jinja_context.map Prod.fst).Nodup ∧
    ((∀ k v, (k, v) ∈ sampleConfig.jinja_filters →
      sampleInitState.app.jinja_env.filters.lookup k = some ((fun s => s) v)) ∧
    (∃ proc ∈ sampleInitState.app.context_processors,
      ∀ k v, (k, v) ∈ sampleConfig.jinja_context →
        proc.lookup k = some ((fun s => s) v))) :=
  ⟨rfl, by decide, by decide,
   init_wires_filters_and_context (fun s => s)
     (fun _ : String => ([] : List String)) (fun _ => false)
     (fun a b => a ++ "/" ++ b) (fun s => "/app/" ++ s)
     (fun _ => ["styles.scss"]) sampleConfig sampleJinjaEnv "app"
     sampleInitState rfl (by decide) (by decide)⟩

/-- C6 witness: the concrete construction registers `styles.css` with
output `css/styles.css` from `static/scss/styles.scss`, with
`url_expire` on. -/
theorem init_registers_scss_bundles_witness :
    (EnhancedApp.init (fun s => s) (fun _ : String => ([] : List String))
        (fun _ => false) (fun a b => a ++ "/" ++ b) (fun s => "/app/" ++ s)
        (fun _ => ["styles.scss"]) sampleConfig sampleJinjaEnv "app"
      = Except.ok sampleInitState) ∧
    ("static/scss" ∈ sampleConfig.scss_folders) ∧
    ("styles.scss" ∈ (fun _ : String => ["styles.scss"]) "static/scss") ∧
    (pyEndsWith "styles.scss" "scss" = true) ∧
    (pyStartsWith "styles.scss" "_" = false) ∧
    (sampleInitState.assets_env.url_expire = true ∧
    ∃ fl dep, (pyDropRight "styles.scss" 5 ++ ".css",
      { contents := [(fun s => "/app/" ++ s)
          ((fun a b => a ++ "/" ++ b) "static/scss" "styles.scss")]
        output := "css/" ++ pyDropRight "styles.scss" 5 ++ ".css"
        filters := fl
        depends := dep : Bundle }) ∈ sampleInitState.assets_env.registry) :=
  ⟨rfl, by decide, by decide, by decide, by decide,
   init_registers_scss_bundles (fun s => s)
     (fun _ : String => ([] : List String)) (fun _ => false)
     (fun a b => a ++ "/" ++ b) (fun s => "/app/" ++ s)
     (fun _ => ["styles.scss"]) sampleConfig sampleJinjaEnv "app"
     sampleInitState rfl "static/scss" "styles.scss" (by decide)
     (by decide) (by decide) (by decide)⟩

/-- C9 witness: the loop run on the sample folder structure from an
empty filesystem. -/
theorem create_folder_structure_stops_witness :
    ∃ k, k ≤ sampleConfig.folder_structure.length ∧
      (EnhancedApp.create_folder_structure (fun s => s) sampleConfig []).1
        = (sampleConfig.folder_structure.take k).map (fun s => s) ∧
      (∀ j, j < k → ∀ e, sampleConfig.folder_structure[j]? = some e →
        (fsAfter (fun s => s) sampleConfig.folder_structure []
          j).contains ((fun s => s) e) = false) ∧
      (∀ e, sampleConfig.folder_structure[k]? = some e →
        (fsAfter (fun s => s) sampleConfig.folder_structure []
          k).contains ((fun s => s) e) = true) :=
  create_folder_structure_stops_at_first_existing (fun s => s) sampleConfig []

/-- C10 witness: a concrete `add_js_asset` run with one non-glob
entry. -/
theorem add_js_asset_spec_witness :
    ((∃ env2, EnhancedApp.add_js_asset (fun _ : String => ([] : List String))
        (fun s => s == "static/js_src/Main.js") (fun a b => a ++ "/" ++ b)
        (fun s => "/app/" ++ s) sampleConfig ("main", JsInput.many ["Main.js"])
        [] { url_expire := true, url := "/static", registry := [] }
        = Except.ok env2)
      ↔ ∀ f ∈ ["Main.js"], pyContainsChar f '*' = false →
          ∃ p, EnhancedApp.find_file (fun s => s == "static/js_src/Main.js")
            (fun a b => a ++ "/" ++ b) (fun s => "/app/" ++ s) f
            sampleConfig.js_folders = Except.ok p) ∧
    (∀ env2, EnhancedApp.add_js_asset (fun _ : String => ([] : List String))
        (fun s => s == "static/js_src/Main.js") (fun a b => a ++ "/" ++ b)
        (fun s => "/app/" ++ s) sampleConfig ("main", JsInput.many ["Main.js"])
        [] { url_expire := true, url := "/static", registry := [] }
        = Except.ok env2 →
      env2.registry = ({ url_expire := true, url := "/static", registry := [] } : AssetsEnv).registry ++ [("main" ++ ".js",
        { contents := ["Main.js"].flatMap (fun f =>
            if pyContainsChar f '*' then
              sortedDesc ((fun _ : String => ([] : List String)) f)
            else (EnhancedApp.find_file (fun s => s == "static/js_src/Main.js")
              (fun a b => a ++ "/" ++ b) (fun s => "/app/" ++ s) f
              sampleConfig.js_folders).toOption.toList)
          output := "js/" ++ "main" ++ ".js"
          filters := []
          depends := [] : Bundle })]) ∧
    (∀ l : List String,
      List.Sorted (fun a b : String => b ≤ a) (sortedDesc l) ∧
      (sortedDesc l).Perm l) :=
  add_js_asset_spec (fun _ : String => ([] : List String))
    (fun s => s == "static/js_src/Main.js") (fun a b => a ++ "/" ++ b)
    (fun s => "/app/" ++ s) sampleConfig "main" ["Main.js"] []
    { url_expire := true, url := "/static", registry := [] }

end EA
